import Mathlib

/-!
# starlinggo: pay-date detection and left-to-pay aggregation

A shallow embedding of `starling.go` and `starlingGo.go`, two copies of the same
program: they differ in the match predicate of `getLastPayDay` and in the label
of a direct-debit row, and only `starling.go` has `AccountInit`. The parts of
Go's `time` and `fmt` packages that the program calls are embedded with it.

Conventions of the embedding
* a Go `string` is a Lean `String`; byte-wise scanning in `time.Parse` is done on
  the list of characters, which agrees with the byte-wise scan because every
  byte the parser accepts is ASCII;
* a `time.Time` is an instant in UTC (the program never leaves UTC): the number
  of nanoseconds since 0001-01-01T00:00:00Z, so the zero `time.Time` is `0`; the
  count is an unbounded integer, the 64-bit range of Go's seconds counter (some
  292 billion years either side of year 1) is not modelled;
* `float64` is a carrier type `F` with the operations the program uses.
-/

namespace time

/-! ## Go's `time` package (UTC only) -/

/-- An instant: nanoseconds since January 1, year 1, 00:00:00 UTC. -/
structure Time where
  ns : Int
deriving DecidableEq

/-- The zero value `time.Time{}`. -/
def zeroTime : Time := ⟨0⟩

/-- Go `Time.Before`. -/
def Time.Before (t u : Time) : Bool := decide (t.ns < u.ns)

/-- Go `Time.After`. -/
def Time.After (t u : Time) : Bool := decide (u.ns < t.ns)

/-- Go `isLeap`. -/
def isLeap (year : Int) : Bool :=
  year % 4 == 0 && (year % 100 != 0 || year % 400 == 0)

/-- Go table `daysBefore`: days in a non-leap year before month `m + 1` begins. -/
def daysBefore : Nat → Int
  | 0 => 0
  | 1 => 31
  | 2 => 59
  | 3 => 90
  | 4 => 120
  | 5 => 151
  | 6 => 181
  | 7 => 212
  | 8 => 243
  | 9 => 273
  | 10 => 304
  | 11 => 334
  | _ => 365

/-- Go `daysIn`. -/
def daysIn (m : Int) (year : Int) : Int :=
  if m == 2 && isLeap year then 29
  else daysBefore m.toNat - daysBefore (m - 1).toNat

/-- Go `daysSinceEpoch`, with the epoch moved to year 1 (Go counts from an
absolute year congruent to 1 modulo 400, so the cycle arithmetic is the same). -/
def daysSinceEpoch (year : Int) : Int :=
  let y := year - 1
  let n := y / 400
  let y := y - 400 * n
  let d := 146097 * n
  let n := y / 100
  let y := y - 100 * n
  let d := d + 36524 * n
  let n := y / 4
  let y := y - 4 * n
  let d := d + 1461 * n
  let n := y
  d + 365 * n

/-- Go `norm`: carries `lo` into `hi` so that `0 ≤ lo < base`. -/
def norm (hi lo base : Int) : Int × Int :=
  let p : Int × Int :=
    if lo < 0 then
      let n := (-lo - 1) / base + 1
      (hi - n, lo + n * base)
    else (hi, lo)
  if p.2 ≥ base then
    let n := p.2 / base
    (p.1 + n, p.2 - n * base)
  else p

/-- Go `time.Date` in UTC. -/
def Date (year month day hour min sec nsec : Int) : Time :=
  let ym := norm year (month - 1) 12
  let year := ym.1
  let month := ym.2 + 1
  let sn := norm sec nsec 1000000000
  let ms := norm min sn.1 60
  let hm := norm hour ms.1 60
  let dh := norm day hm.1 24
  let d := daysSinceEpoch year + daysBefore (month - 1).toNat
    + (if isLeap year && decide (month ≥ 3) then 1 else 0) + (dh.1 - 1)
  let abs := d * 86400 + (dh.2 * 3600 + hm.2 * 60 + ms.2)
  ⟨abs * 1000000000 + sn.2⟩

/-- First half of Go `absDate`: the year and the zero-based day within the year
of the day that lies `days` days after January 1, year 1. -/
def absYday (days : Int) : Int × Int :=
  let d := days
  let n := d / 146097
  let y := 400 * n
  let d := d - 146097 * n
  let n := d / 36524
  let n := n - n / 4
  let y := y + 100 * n
  let d := d - 36524 * n
  let n := d / 1461
  let y := y + 4 * n
  let d := d - 1461 * n
  let n := d / 365
  let n := n - n / 4
  let y := y + n
  let d := d - 365 * n
  (y + 1, d)

/-- Second half of Go `absDate`: month and day of month from the year and the
zero-based day within the year. -/
def absMonthDay (year yday : Int) : Int × Int :=
  if isLeap year && decide (yday = 31 + 29 - 1) then (2, 29)
  else
    let day := if isLeap year && decide (yday > 31 + 29 - 1) then yday - 1 else yday
    let month := day / 31
    let e := daysBefore (month + 1).toNat
    if day ≥ e then (month + 2, day - e + 1)
    else (month + 1, day - daysBefore month.toNat + 1)

/-- Go `absDate` on a day count: year, month, day of month. -/
def absDate (days : Int) : Int × Int × Int :=
  let yd := absYday days
  let md := absMonthDay yd.1 yd.2
  (yd.1, md.1, md.2)

/-- Seconds since the epoch (Go `Time.abs`). -/
def Time.abs (t : Time) : Int := t.ns / 1000000000

/-- Go `Time.Date`: year, month, day of the instant. -/
def Time.Date (t : Time) : Int × Int × Int := absDate (t.abs / 86400)

/-- Go `Time.Clock`: hour, minute, second within the day. -/
def Time.Clock (t : Time) : Int × Int × Int :=
  let sec := t.abs % 86400
  let hour := sec / 3600
  let sec := sec - hour * 3600
  let min := sec / 60
  let sec := sec - min * 60
  (hour, min, sec)

/-- Go `Time.Nanosecond`. -/
def Time.Nanosecond (t : Time) : Int := t.ns % 1000000000

/-- Go `Time.AddDate`. -/
def Time.AddDate (t : Time) (years months days : Int) : Time :=
  let ymd := t.Date
  let hms := t.Clock
  time.Date (ymd.1 + years) (ymd.2.1 + months) (ymd.2.2 + days) hms.1 hms.2.1 hms.2.2
    t.Nanosecond

/-! ### Layouts, `Time.Format` and `time.Parse`

A layout string is kept as the list of chunks that Go's `nextStdChunk` cuts it
into. Only the chunk kinds that occur in the two layouts of the program are
modelled. The literal text of these layouts holds no space, so the
space-collapsing branch of Go's `skip` is left out. -/

/-- One chunk of a layout: literal text or a standard field. -/
inductive Chunk where
  | lit (s : String)
  | stdLongYear
  | stdZeroMonth
  | stdZeroDay
  | stdHour
  | stdZeroMinute
  | stdZeroSecond
  | stdFracSecond0 (digits : Nat)
deriving DecidableEq

/-- The error results of `time.Parse`. -/
inductive ParseError where
  | bad
  | range
  | extraText
  | dayOutOfRange
deriving DecidableEq

/-- The fields that `time.Parse` collects while it scans. -/
structure Fields where
  year : Int := 0
  month : Int := -1
  day : Int := -1
  hour : Int := 0
  min : Int := 0
  sec : Int := 0
  nsec : Int := 0

/-- Value of a decimal digit character. -/
def digitVal (c : Char) : Int := (c.toNat : Int) - 48

/-- Go `isDigit`: is there a decimal digit at index `i`. -/
def isDigit (s : List Char) (i : Nat) : Bool :=
  match s.get? i with
  | some c => c.isDigit
  | none => false

/-- Go `commaOrPeriod`. -/
def commaOrPeriod (c : Char) : Bool := c == '.' || c == ','

/-- Go `getnum`: a one or two digit number; exactly two digits when `fixed`. -/
def getnum (s : List Char) (fixed : Bool) : Option (Int × List Char) :=
  if !isDigit s 0 then none
  else if !isDigit s 1 then
    if fixed then none else some (digitVal (s.headD '0'), s.drop 1)
  else some (digitVal (s.headD '0') * 10 + digitVal ((s.drop 1).headD '0'), s.drop 2)

/-- Go `leadingInt`: the leading run of digits and the rest (overflow cannot
occur on the fields parsed here, which are at most nine digits long). -/
def leadingInt : List Char → Int → Int × List Char
  | [], x => (x, [])
  | c :: cs, x => if c.isDigit then leadingInt cs (x * 10 + digitVal c) else (x, c :: cs)

/-- Go `atoi`: an optional sign followed by digits only. -/
def atoi (s : List Char) : Option Int :=
  let neg := s.head? == some '-'
  let s := if s.head? == some '-' || s.head? == some '+' then s.drop 1 else s
  let qr := leadingInt s 0
  if qr.2.length > 0 then none
  else some (if neg then -qr.1 else qr.1)

/-- Go `skip` for literal text without spaces: the value must start with it. -/
def skip : List Char → List Char → Option (List Char)
  | value, [] => some value
  | [], _ :: _ => none
  | v :: value, p :: ps => if v != p then none else skip value ps

/-- Go `parseNanoseconds`: a separator followed by `nbytes - 1` digits. -/
def parseNanoseconds (value : List Char) (nbytes : Nat) : Except ParseError Int :=
  if !commaOrPeriod (value.headD ' ') then .error .bad
  else
    let value := if nbytes > 10 then value.take 10 else value
    let nbytes := if nbytes > 10 then 10 else nbytes
    match atoi ((value.take nbytes).drop 1) with
    | none => .error .bad
    | some ns => if ns < 0 then .error .range else .ok (ns * 10 ^ (10 - nbytes))

/-- The next standard chunk of a layout, literal text skipped. -/
def nextStd : List Chunk → Option Chunk
  | [] => none
  | .lit _ :: rest => nextStd rest
  | c :: _ => some c

/-- One iteration of the loop of `time.Parse`: consume the text of one chunk. -/
def parseChunk (rest : List Chunk) (c : Chunk) (f : Fields) (value : List Char) :
    Except ParseError (Fields × List Char) :=
  match c with
  | .lit s =>
    match skip value s.toList with
    | none => .error .bad
    | some v => .ok (f, v)
  | .stdLongYear =>
    if value.length < 4 || !isDigit value 0 then .error .bad
    else
      match atoi (value.take 4) with
      | none => .error .bad
      | some y => .ok ({ f with year := y }, value.drop 4)
  | .stdZeroMonth =>
    match getnum value true with
    | none => .error .bad
    | some (m, v) => if m ≤ 0 || 12 < m then .error .range else .ok ({ f with month := m }, v)
  | .stdZeroDay =>
    match getnum value true with
    | none => .error .bad
    | some (d, v) => .ok ({ f with day := d }, v)
  | .stdHour =>
    match getnum value false with
    | none => .error .bad
    | some (h, v) => if h < 0 || 24 ≤ h then .error .range else .ok ({ f with hour := h }, v)
  | .stdZeroMinute =>
    match getnum value true with
    | none => .error .bad
    | some (m, v) => if m < 0 || 60 ≤ m then .error .range else .ok ({ f with min := m }, v)
  | .stdZeroSecond =>
    match getnum value true with
    | none => .error .bad
    | some (s, v) =>
      if s < 0 || 60 ≤ s then .error .range
      else if v.length ≥ 2 && commaOrPeriod (v.headD ' ') && isDigit v 1 then
        match nextStd rest with
        | some (.stdFracSecond0 _) => .ok ({ f with sec := s }, v)
        | _ =>
          let n := 1 + ((v.drop 1).takeWhile Char.isDigit).length
          match parseNanoseconds v n with
          | .error e => .error e
          | .ok ns => .ok ({ f with sec := s, nsec := ns }, v.drop n)
      else .ok ({ f with sec := s }, v)
  | .stdFracSecond0 digits =>
    let ndigit := 1 + digits
    if value.length < ndigit then .error .bad
    else
      match parseNanoseconds value ndigit with
      | .error e => .error e
      | .ok ns => .ok ({ f with nsec := ns }, value.drop ndigit)

/-- The loop of `time.Parse` over the chunks of the layout. -/
def parseLoop : List Chunk → Fields → List Char → Except ParseError Fields
  | [], f, value => if value.length != 0 then .error .extraText else .ok f
  | c :: rest, f, value =>
    match parseChunk rest c f value with
    | .error e => .error e
    | .ok (f1, v) => parseLoop rest f1 v

/-- Go `time.Parse`: the parsed instant and the error; on error the instant is
the zero `Time`, as in Go. -/
def Parse (layout : List Chunk) (value : String) : Time × Option ParseError :=
  match parseLoop layout {} value.toList with
  | .error e => (zeroTime, some e)
  | .ok f =>
    let month := if f.month < 0 then 1 else f.month
    let day := if f.day < 0 then 1 else f.day
    if day < 1 || day > daysIn month f.year then (zeroTime, some .dayOutOfRange)
    else (Date f.year month day f.hour f.min f.sec f.nsec, none)

/-- Go `appendInt`: decimal digits of `x`, zero-padded to `width`, after a minus
sign when `x` is negative. -/
def appendInt (x : Int) (width : Nat) : String :=
  let digits := Nat.toDigits 10 x.natAbs
  (if x < 0 then "-" else "") ++ String.mk (List.replicate (width - digits.length) '0' ++ digits)

/-- Text that `Time.Format` writes for one chunk. -/
def formatChunk (t : Time) : Chunk → String
  | .lit s => s
  | .stdLongYear => appendInt t.Date.1 4
  | .stdZeroMonth => appendInt t.Date.2.1 2
  | .stdZeroDay => appendInt t.Date.2.2 2
  | .stdHour => appendInt t.Clock.1 2
  | .stdZeroMinute => appendInt t.Clock.2.1 2
  | .stdZeroSecond => appendInt t.Clock.2.2 2
  | .stdFracSecond0 digits =>
    "." ++ String.mk ((appendInt t.Nanosecond 9).toList.take digits)

/-- Go `Time.Format`. -/
def Time.Format (t : Time) (layout : List Chunk) : String :=
  String.join (layout.map (formatChunk t))

end time

/-! ## Go's `float64` and `fmt.Sprintf` as the program uses them -/

/-- The `float64` operations of the program on a carrier `F`: the constant
`0.00`, addition, division by `100.00`, and the text that the verb `%.2f`
prints. The one law recorded is that `0.00 / 100.00` is `0.00`. -/
class GoFloat (F : Type) where
  zero : F
  add : F → F → F
  div100 : F → F
  fmtF2 : F → String
  div100_zero : div100 zero = zero

namespace fmt

/-- Go `(*fmt).padString`: pad with spaces to `wid` characters, on the right when
the minus flag is set and on the left otherwise; never truncates. -/
def padString (wid : Nat) (minus : Bool) (s : String) : String :=
  let padding := String.mk (List.replicate (wid - s.length) ' ')
  if minus then s ++ padding else padding ++ s

end fmt

/-- Text of a rational with two decimals, rounded half to even, as `%.2f`
prints a `float64` that holds exactly that value. -/
def ratFmtF2 (q : ℚ) : String :=
  let a : Nat := q.num.natAbs * 100
  let k : Nat := a / q.den
  let r : Nat := a % q.den
  let n : Nat := if 2 * r > q.den then k + 1 else if 2 * r < q.den then k else k + k % 2
  let frac := Nat.toDigits 10 (n % 100)
  (if q.num < 0 then "-" else "") ++ String.mk (Nat.toDigits 10 (n / 100)) ++ "."
    ++ String.mk (List.replicate (2 - frac.length) '0' ++ frac)

/-- Exact arithmetic on rationals: agrees with `float64` wherever every value
met is exactly representable and no rounding occurs. -/
instance exactFloat : GoFloat ℚ where
  zero := 0
  add := fun x y => x + y
  div100 := fun x => x / 100
  fmtF2 := ratFmtF2
  div100_zero := by norm_num

/-! ## Declarations shared by `starling.go` and `starlingGo.go` -/

namespace starlinggo

open time

/-- Layout `datetimeFmt = "2006-01-02T15:04:05.000Z"`, cut into chunks. -/
def datetimeFmt : List Chunk :=
  [.stdLongYear, .lit "-", .stdZeroMonth, .lit "-", .stdZeroDay, .lit "T", .stdHour, .lit ":",
    .stdZeroMinute, .lit ":", .stdZeroSecond, .stdFracSecond0 3, .lit "Z"]

/-- Layout `dateFmt = "2006-01-02"`, cut into chunks. -/
def dateFmt : List Chunk :=
  [.stdLongYear, .lit "-", .stdZeroMonth, .lit "-", .stdZeroDay]

structure amount (F : Type) where
  Currency : String
  Pence : F

structure latestDDPayment (F : Type) where
  LastAmount : amount F
  LastDate : String

structure directDebit (F : Type) where
  Status : String
  Payee : String
  LatestPayment : latestDDPayment F

structure recurringPayment (F : Type) where
  Payee : String
  Status : String
  LastAmount : amount F
  LastDate : String

structure standingOrder (F : Type) where
  Reference : String
  Amount : amount F
  CancelDate : String
  NextDate : String

structure transaction (F : Type) where
  Amount : amount F
  Direction : String
  TransactionDt : String
  PartyName : String
  Reference : String

structure accountDetial where
  AccountUid : String
  AccountType : String
  CategoryUid : String
  Name : String

structure Account where
  Token : String
  AccountUid : String
  CategoryUid : String
deriving DecidableEq

/-- The outside world of `starling.go`: the HTTP client behind `get` (`none` is
a transport error, on which `get` calls `log.Fatalln`) and `json.Unmarshal`
into `accounts` (`none` is a decode error, on which the caller calls
`log.Fatal`). -/
structure World where
  get : String → String → Option String
  unmarshalAccounts : String → Option (List accountDetial)

variable {F : Type} [GoFloat F]

/-- Go `writeRepTab` (identical in both files):
`fmt.Sprintf("<tr><td>%-20s</td><td>%-30s</td><td>£%8.2f</td><td>%s</td></tr>", ...)`. -/
def writeRepTab (status payee : String) (amnt : F) (dt : String) : String :=
  "<tr><td>" ++ fmt.padString 20 true status ++ "</td><td>" ++ fmt.padString 30 true payee
    ++ "</td><td>£" ++ fmt.padString 8 false (GoFloat.fmtF2 amnt) ++ "</td><td>" ++ dt
    ++ "</td></tr>"

/-- Body of the second loop of `leftToPayReport` (identical in both files). -/
def rpStep (payDate : Time) (acc : F × String) (e : recurringPayment F) : F × String :=
  let dt := (Parse datetimeFmt e.LastDate).1
  if e.Status == "ACTIVE" && dt.Before payDate then
    (GoFloat.add acc.1 e.LastAmount.Pence,
      acc.2 ++ writeRepTab e.Status e.Payee (GoFloat.div100 e.LastAmount.Pence) (dt.Format dateFmt))
  else acc

/-- Body of the third loop of `leftToPayReport` (identical in both files). -/
def soStep (payDate : Time) (acc : F × String) (e : standingOrder F) : F × String :=
  let dt := (Parse datetimeFmt e.NextDate).1
  if e.CancelDate != "" && dt.Before (payDate.AddDate 0 1 0) && dt.After payDate then
    (GoFloat.add acc.1 e.Amount.Pence,
      acc.2 ++ writeRepTab "ACTIVE" e.Reference (GoFloat.div100 e.Amount.Pence) (dt.Format dateFmt))
  else acc

/-! ## `starling.go` -/

/-- Go `getLastPayDay` of `starling.go`. -/
def getLastPayDay (ts : List (transaction F)) (ref : String) : Time :=
  ts.foldl
    (fun dt t =>
      if t.Direction == "IN" && t.Reference == ref then (Parse datetimeFmt t.TransactionDt).1
      else dt)
    zeroTime

/-- Body of the first loop of `leftToPayReport` in `starling.go`. -/
def ddStep (payDate : Time) (acc : F × String) (e : directDebit F) : F × String :=
  let dt := (Parse dateFmt e.LatestPayment.LastDate).1
  if e.Status == "LIVE" && dt.Before payDate then
    (GoFloat.add acc.1 e.LatestPayment.LastAmount.Pence,
      acc.2 ++ writeRepTab "ACTIVE" e.Payee (GoFloat.div100 e.LatestPayment.LastAmount.Pence)
        (dt.Format dateFmt))
  else acc

/-- Go `leftToPayReport` of `starling.go`; the accumulator is `(total, report)`. -/
def leftToPayReport (dd : List (directDebit F)) (rp : List (recurringPayment F))
    (so : List (standingOrder F)) (payDate : Time) : F × String :=
  let acc : F × String := (GoFloat.zero, "")
  let acc := dd.foldl (ddStep payDate) acc
  let acc := rp.foldl (rpStep payDate) acc
  let acc := so.foldl (soStep payDate) acc
  (GoFloat.div100 acc.1, acc.2)

/-- Go `getPrimaryAccountDetails`; `none` when the process is ended by
`log.Fatal`. -/
def getPrimaryAccountDetails (w : World) (token : String) : Option (String × String) :=
  match w.get "accounts" token with
  | none => none
  | some resp =>
    match w.unmarshalAccounts resp with
    | none => none
    | some accs =>
      some (accs.foldl
        (fun (p : String × String) acc =>
          if acc.AccountType == "PRIMARY" then (acc.AccountUid, acc.CategoryUid) else p)
        ("", ""))

/-- Go `AccountInit`. -/
def AccountInit (w : World) (token : String) : Option Account :=
  match getPrimaryAccountDetails w token with
  | none => none
  | some (au, cu) => some { Token := token, AccountUid := au, CategoryUid := cu }

end starlinggo

/-! ## `starlingGo.go` -/

namespace starlingGo

open time starlinggo

variable {F : Type} [GoFloat F]

/-- Go `getLastPayDay` of `starlingGo.go`, which also matches the counterparty. -/
def getLastPayDay (ts : List (transaction F)) (ref : String) (employer : String) : Time :=
  ts.foldl
    (fun dt t =>
      if t.Direction == "IN" && t.Reference == ref && t.PartyName == employer then
        (Parse datetimeFmt t.TransactionDt).1
      else dt)
    zeroTime

/-- Body of the first loop of `leftToPayReport` in `starlingGo.go`. -/
def ddStep (payDate : Time) (acc : F × String) (e : directDebit F) : F × String :=
  let dt := (Parse dateFmt e.LatestPayment.LastDate).1
  if e.Status == "LIVE" && dt.Before payDate then
    (GoFloat.add acc.1 e.LatestPayment.LastAmount.Pence,
      acc.2 ++ writeRepTab e.Status e.Payee (GoFloat.div100 e.LatestPayment.LastAmount.Pence)
        (dt.Format dateFmt))
  else acc

/-- Go `leftToPayReport` of `starlingGo.go`; the accumulator is `(total, report)`. -/
def leftToPayReport (dd : List (directDebit F)) (rp : List (recurringPayment F))
    (so : List (standingOrder F)) (payDate : Time) : F × String :=
  let acc : F × String := (GoFloat.zero, "")
  let acc := dd.foldl (ddStep payDate) acc
  let acc := rp.foldl (rpStep payDate) acc
  let acc := so.foldl (soStep payDate) acc
  (GoFloat.div100 acc.1, acc.2)

end starlingGo

/-! ## Auxiliary calendar definitions used in the proofs -/

namespace time

/-- Days contributed by February 29 to a date in month `m` of year `y`. -/
def leapAdj (y m : Int) : Int := if isLeap y && decide (m ≥ 3) then 1 else 0

/-- The table lookup at the end of `absDate`, for a day of a non-leap year. -/
def monthOfDay (day : Int) : Int × Int :=
  if day ≥ daysBefore (day / 31 + 1).toNat then
    (day / 31 + 2, day - daysBefore (day / 31 + 1).toNat + 1)
  else (day / 31 + 1, day - daysBefore (day / 31).toNat + 1)

/-- Day count of a calendar date, as `Date` computes it once the month is in
range. -/
def civilDays (y m d : Int) : Int :=
  daysSinceEpoch y + daysBefore (m - 1).toNat + leapAdj y m + (d - 1)

end time

/-! ## Vocabulary of the properties -/

namespace starlinggo

open time

variable {F : Type} [GoFloat F]

/-- The match predicate of `getLastPayDay` in `starling.go`: an incoming
transaction that carries the pay reference. -/
def payMatch (ref : String) (t : transaction F) : Bool :=
  t.Direction == "IN" && t.Reference == ref

/-- The instant that `getLastPayDay` takes from a transaction: its
`TransactionDt` parsed with `datetimeFmt`, the parse error discarded. -/
def txTime (t : transaction F) : Time := (Parse datetimeFmt t.TransactionDt).1

/-- The last element of a list that satisfies a test, if any. -/
def lastSuch {α : Type} (p : α → Bool) (xs : List α) : Option α := (xs.filter p).getLast?

/-- The instant compared for a direct debit: `LastDate` parsed with `dateFmt`,
the parse error discarded. -/
def ddTime (e : directDebit F) : Time := (Parse dateFmt e.LatestPayment.LastDate).1

/-- The instant compared for a recurring payment. -/
def rpTime (e : recurringPayment F) : Time := (Parse datetimeFmt e.LastDate).1

/-- The instant compared for a standing order. -/
def soTime (e : standingOrder F) : Time := (Parse datetimeFmt e.NextDate).1

/-- The calendar date of an instant in UTC, as a count of days. -/
def calendarDay (t : Time) : Int := t.abs / 86400

/-- The filter of the direct-debit loop (the same in both files). -/
def ddDue (payDate : Time) (e : directDebit F) : Bool :=
  e.Status == "LIVE" && (ddTime e).Before payDate

/-- The filter of the recurring-payment loop. -/
def rpDue (payDate : Time) (e : recurringPayment F) : Bool :=
  e.Status == "ACTIVE" && (rpTime e).Before payDate

/-- The filter of the standing-order loop. -/
def soDue (payDate : Time) (e : standingOrder F) : Bool :=
  e.CancelDate != "" && (soTime e).Before (payDate.AddDate 0 1 0) && (soTime e).After payDate

/-- The row of a direct debit in `starling.go`, with the cell texts given. -/
def ddRow (e : directDebit F) : String :=
  writeRepTab "ACTIVE" e.Payee (GoFloat.div100 e.LatestPayment.LastAmount.Pence)
    ((ddTime e).Format dateFmt)

/-- The row of a recurring payment. -/
def rpRow (e : recurringPayment F) : String :=
  writeRepTab e.Status e.Payee (GoFloat.div100 e.LastAmount.Pence) ((rpTime e).Format dateFmt)

/-- The row of a standing order. -/
def soRow (e : standingOrder F) : String :=
  writeRepTab "ACTIVE" e.Reference (GoFloat.div100 e.Amount.Pence) ((soTime e).Format dateFmt)

/-- The minor-unit amounts of the obligations that pass their filter: direct
debits, then recurring payments, then standing orders, each in input order. -/
def dueAmounts (dd : List (directDebit F)) (rp : List (recurringPayment F))
    (so : List (standingOrder F)) (payDate : Time) : List F :=
  (dd.filter (ddDue payDate)).map (fun e => e.LatestPayment.LastAmount.Pence)
    ++ (rp.filter (rpDue payDate)).map (fun e => e.LastAmount.Pence)
    ++ (so.filter (soDue payDate)).map (fun e => e.Amount.Pence)

/-- The rows of the obligations that pass their filter in `starling.go`, in the
same order. -/
def dueRows (dd : List (directDebit F)) (rp : List (recurringPayment F))
    (so : List (standingOrder F)) (payDate : Time) : List String :=
  (dd.filter (ddDue payDate)).map ddRow ++ (rp.filter (rpDue payDate)).map rpRow
    ++ (so.filter (soDue payDate)).map soRow

/-- The expected string of `Test_writeRepTab` in `starling_test.go`:
`fmt.Sprintf("<tr><td>%-20s</td><td>%-30s</td><td>Â£%8.2f</td><td>%s</td></tr>", ...)`. -/
def testWant (s p : String) (a : F) (d : String) : String :=
  "<tr><td>" ++ fmt.padString 20 true s ++ "</td><td>" ++ fmt.padString 30 true p
    ++ "</td><td>Â£" ++ fmt.padString 8 false (GoFloat.fmtF2 a) ++ "</td><td>" ++ d
    ++ "</td></tr>"

end starlinggo

namespace starlingGo

open time starlinggo

variable {F : Type} [GoFloat F]

/-- The row of a direct debit in `starlingGo.go`. -/
def ddRow (e : directDebit F) : String :=
  writeRepTab e.Status e.Payee (GoFloat.div100 e.LatestPayment.LastAmount.Pence)
    ((ddTime e).Format dateFmt)

/-- The rows of the obligations that pass their filter in `starlingGo.go`. -/
def dueRows (dd : List (directDebit F)) (rp : List (recurringPayment F))
    (so : List (standingOrder F)) (payDate : Time) : List String :=
  (dd.filter (ddDue payDate)).map ddRow ++ (rp.filter (rpDue payDate)).map rpRow
    ++ (so.filter (soDue payDate)).map soRow

/-- The match predicate of `getLastPayDay` in `starlingGo.go`: an incoming
transaction that carries the pay reference and comes from the employer. -/
def payMatch (ref employer : String) (t : transaction F) : Bool :=
  t.Direction == "IN" && t.Reference == ref && t.PartyName == employer

end starlingGo

/-! ## Concrete inputs -/

namespace Examples

open time starlinggo

/-- An incoming salary payment whose time stamp has no milliseconds. -/
def salaryNoMillis : transaction ℚ :=
  { Amount := ⟨"GBP", 250000⟩, Direction := "IN", TransactionDt := "2022-04-15T09:30:00Z",
    PartyName := "ACME LTD", Reference := "SALARY" }

/-- An incoming salary payment of 15 April 2022. -/
def salaryApril : transaction ℚ :=
  { Amount := ⟨"GBP", 250000⟩, Direction := "IN", TransactionDt := "2022-04-15T09:30:00.000Z",
    PartyName := "ACME LTD", Reference := "SALARY" }

/-- An incoming salary payment of 15 March 2022. -/
def salaryMarch : transaction ℚ :=
  { Amount := ⟨"GBP", 250000⟩, Direction := "IN", TransactionDt := "2022-03-15T09:30:00.000Z",
    PartyName := "ACME LTD", Reference := "SALARY" }

/-- An outgoing card payment. -/
def coffee : transaction ℚ :=
  { Amount := ⟨"GBP", 350⟩, Direction := "OUT", TransactionDt := "2022-04-16T08:00:00.000Z",
    PartyName := "CAFE", Reference := "COFFEE" }

/-- The pay date of the examples: 15 April 2022, 09:30 UTC. -/
def payDay : Time := (Parse datetimeFmt "2022-04-15T09:30:00.000Z").1

/-- A live direct debit of 5000 pence, last paid two days before `payDay`. -/
def gym : directDebit ℚ :=
  { Status := "LIVE", Payee := "GYM", LatestPayment := ⟨⟨"GBP", 5000⟩, "2022-04-13"⟩ }

/-- A live direct debit last paid on the calendar day of `payDay`. -/
def sameDay : directDebit ℚ :=
  { Status := "LIVE", Payee := "WATER", LatestPayment := ⟨⟨"GBP", 3100⟩, "2022-04-15"⟩ }

/-- A live direct debit whose last payment date lies in year 0. -/
def yearZero : directDebit ℚ :=
  { Status := "LIVE", Payee := "OLD", LatestPayment := ⟨⟨"GBP", 1250⟩, "0000-12-31"⟩ }

/-- An active recurring payment last taken on 1 April 2022. -/
def music : recurringPayment ℚ :=
  { Payee := "MUSIC", Status := "ACTIVE", LastAmount := ⟨"GBP", 999⟩,
    LastDate := "2022-04-01T06:00:00.000Z" }

/-- A standing order of 2000 pence with the given next date and a non-empty
`CancelDate`. -/
def rent (next : String) : standingOrder ℚ :=
  { Reference := "RENT", Amount := ⟨"GBP", 2000⟩, CancelDate := "2023-01-01T00:00:00.000Z",
    NextDate := next }

/-- The accounts that the test `Test_AccountInit` serves. -/
def testAccounts : List accountDetial :=
  [{ AccountUid := "correct", AccountType := "PRIMARY", CategoryUid := "correct",
     Name := "Personal" },
   { AccountUid := "incorrect", AccountType := "SECONDAY", CategoryUid := "incorrect",
     Name := "Joint" }]

/-- A world whose HTTP client answers every request with one body, decoded to
the accounts of the test. -/
def testWorld : World :=
  { get := fun _ _ => some "\x7b\x7d", unmarshalAccounts := fun _ => some testAccounts }

end Examples

/-! ## Calendar arithmetic -/

namespace time

theorem absYday_arith (D q1 r1 n2 r2 n3 r3 n4 r4 y : Int)
    (h1 : q1 = D / 146097) (h2 : r1 = D - 146097 * q1)
    (h3 : n2 = r1 / 36524) (h4 : r2 = r1 - 36524 * (n2 - n2 / 4))
    (h5 : n3 = r2 / 1461) (h6 : r3 = r2 - 1461 * n3)
    (h7 : n4 = r3 / 365) (h8 : r4 = r3 - 365 * (n4 - n4 / 4))
    (h9 : y = 400 * q1 + 100 * (n2 - n2 / 4) + 4 * n3 + (n4 - n4 / 4)) :
    y / 400 = q1 ∧ (y - 400 * q1) / 100 = n2 - n2 / 4 ∧
    (y - 400 * q1 - 100 * (n2 - n2 / 4)) / 4 = n3 ∧ 0 ≤ r4 ∧
    (r4 < 365 ∨ (r4 = 365 ∧ (y + 1) % 4 = 0 ∧ ((y + 1) % 100 ≠ 0 ∨ (y + 1) % 400 = 0))) := by
  have b2 : 0 ≤ n2 ∧ n2 ≤ 4 := by omega
  have b4 : 0 ≤ n4 ∧ n4 ≤ 4 := by omega
  obtain ⟨b2l, b2u⟩ := b2
  obtain ⟨b4l, b4u⟩ := b4
  interval_cases n2 <;> interval_cases n4 <;> omega

theorem isLeap_iff (y : Int) :
    isLeap y = true ↔ y % 4 = 0 ∧ (y % 100 ≠ 0 ∨ y % 400 = 0) := by
  simp [isLeap]

/-- The year and day of year found by `absYday` name the given day, and the day
of year lies within the year. -/
theorem absYday_spec (D : Int) :
    daysSinceEpoch (absYday D).1 + (absYday D).2 = D ∧ 0 ≤ (absYday D).2 ∧
      (absYday D).2 < 365 + (if isLeap (absYday D).1 then 1 else 0) := by
  obtain ⟨a1, a2, a3, a4, a5⟩ := absYday_arith D _ _ _ _ _ _ _ _ _ rfl rfl rfl rfl rfl rfl rfl rfl rfl
  refine ⟨?_, ?_, ?_⟩
  · simp only [absYday, daysSinceEpoch]
    simp only [add_sub_cancel_right]
    rw [a1, a2, a3]
    ring
  · simpa [absYday] using a4
  · simp only [absYday]
    rcases a5 with h | ⟨h, l1, l2⟩
    · split <;> omega
    · rw [if_pos ((isLeap_iff _).2 ⟨l1, l2⟩)]
      omega


theorem monthOfDay_spec (day : Int) (h0 : 0 ≤ day) (h1 : day < 365) :
    1 ≤ (monthOfDay day).1 ∧ (monthOfDay day).1 ≤ 12 ∧ 1 ≤ (monthOfDay day).2 ∧
      (monthOfDay day).2 ≤
        daysBefore (monthOfDay day).1.toNat - daysBefore ((monthOfDay day).1 - 1).toNat ∧
      daysBefore ((monthOfDay day).1 - 1).toNat + ((monthOfDay day).2 - 1) = day ∧
      ((monthOfDay day).1 ≥ 3 ↔ day ≥ 59) := by
  unfold monthOfDay
  have hm : 0 ≤ day / 31 ∧ day / 31 ≤ 11 := by omega
  obtain ⟨m0, m1⟩ := hm
  generalize hk : day / 31 = k at *
  interval_cases k <;> simp only [daysBefore, Int.toNat_ofNat, Int.reduceAdd, Int.reduceToNat] <;>
    split <;> simp [daysBefore] <;> omega

theorem absMonthDay_eq (y yd : Int) :
    absMonthDay y yd =
      if isLeap y = true ∧ yd = 59 then (2, 29)
      else monthOfDay (if isLeap y = true ∧ 59 < yd then yd - 1 else yd) := by
  unfold absMonthDay monthOfDay
  simp only [show (31 : Int) + 29 - 1 = 59 from rfl, Bool.and_eq_true, decide_eq_true_eq,
    gt_iff_lt]

/-- The month and day found by `absMonthDay` are a valid calendar date that
names the given day of the year. -/
theorem absMonthDay_spec (y yd : Int) (h0 : 0 ≤ yd)
    (h1 : yd < 365 + (if isLeap y then 1 else 0)) :
    1 ≤ (absMonthDay y yd).1 ∧ (absMonthDay y yd).1 ≤ 12 ∧ 1 ≤ (absMonthDay y yd).2 ∧
      (absMonthDay y yd).2 ≤ daysIn (absMonthDay y yd).1 y ∧
      daysBefore ((absMonthDay y yd).1 - 1).toNat + leapAdj y (absMonthDay y yd).1
        + ((absMonthDay y yd).2 - 1) = yd := by
  rw [absMonthDay_eq]
  unfold leapAdj daysIn
  cases hl : isLeap y
  · simp only [hl, Bool.false_and, Bool.and_false, if_false, Bool.false_eq_true, false_and,
      add_zero] at h1 ⊢
    obtain ⟨a, b, c, d, e, _⟩ := monthOfDay_spec yd h0 (by omega)
    exact ⟨a, b, c, d, e⟩
  · simp only [hl, Bool.true_and, Bool.and_true, if_true, true_and] at h1 ⊢
    by_cases e : yd = 59
    · subst e
      simp [daysBefore]
    · simp only [e, if_false]
      by_cases g : 59 < yd
      · simp only [g, if_true]
        obtain ⟨a, b, c, d, e, f⟩ := monthOfDay_spec (yd - 1) (by omega) (by omega)
        have h3 : (monthOfDay (yd - 1)).1 ≥ 3 := f.2 (by omega)
        have h2 : ¬ (monthOfDay (yd - 1)).1 = 2 := by omega
        simp only [h3, h2, decide_True, decide_False, if_true, if_false, beq_iff_eq,
          Bool.false_eq_true]
        exact ⟨a, b, c, d, by omega⟩
      · simp only [g, if_false]
        obtain ⟨a, b, c, d, e, f⟩ := monthOfDay_spec yd h0 (by omega)
        have h3 : ¬ (monthOfDay yd).1 ≥ 3 := fun h => by have := f.1 h; omega
        simp only [h3, decide_False, if_false, Bool.false_eq_true, add_zero, beq_iff_eq]
        refine ⟨a, b, c, ?_, e⟩
        split
        · rename_i hm2
          rw [hm2] at d
          simp [daysBefore] at d
          omega
        · exact d


theorem daysIn_bounds (m y : Int) (h1 : 1 ≤ m) (h2 : m ≤ 12) :
    28 ≤ daysIn m y ∧ daysIn m y ≤ 31 := by
  unfold daysIn
  interval_cases m <;> cases isLeap y <;> simp [daysBefore]

theorem daysSinceEpoch_succ (y : Int) :
    daysSinceEpoch (y + 1) = daysSinceEpoch y + 365 + (if isLeap y then 1 else 0) := by
  have key : ∀ z : Int, daysSinceEpoch z
      = 365 * (z - 1) + (z - 1) / 4 - (z - 1) / 100 + (z - 1) / 400 := by
    intro z
    simp only [daysSinceEpoch]
    omega
  rw [key, key]
  by_cases h : isLeap y = true
  · rw [if_pos h]
    rw [isLeap_iff] at h
    omega
  · rw [if_neg h]
    rw [isLeap_iff] at h
    omega

theorem norm_of_range (hi lo base : Int) (h0 : 0 ≤ lo) (h1 : lo < base) :
    norm hi lo base = (hi, lo) := by
  unfold norm
  simp [not_lt.2 h0, not_le.2 h1]


theorem Date_ns (y m d h mi s n : Int) (hm1 : 1 ≤ m) (hm2 : m ≤ 13)
    (hh : 0 ≤ h ∧ h < 24) (hmi : 0 ≤ mi ∧ mi < 60) (hs : 0 ≤ s ∧ s < 60)
    (hn : 0 ≤ n ∧ n < 1000000000) :
    (Date y m d h mi s n).ns =
      ((if m = 13 then civilDays (y + 1) 1 d else civilDays y m d) * 86400
        + (h * 3600 + mi * 60 + s)) * 1000000000 + n := by
  unfold Date
  rw [norm_of_range s n _ hn.1 hn.2]
  simp only []
  rw [norm_of_range mi s _ hs.1 hs.2]
  simp only []
  rw [norm_of_range h mi _ hmi.1 hmi.2]
  simp only []
  rw [norm_of_range d h _ hh.1 hh.2]
  simp only []
  by_cases h13 : m = 13
  · subst h13
    have : norm y (13 - 1) 12 = (y + 1, 0) := by
      unfold norm
      simp
    rw [this]
    simp [civilDays, leapAdj]
  · rw [norm_of_range y (m - 1) 12 (by omega) (by omega)]
    simp only [if_neg h13, civilDays, leapAdj, sub_add_cancel]

theorem civilDays_next_month (y m d : Int) (hm1 : 1 ≤ m) (hm2 : m ≤ 12) :
    (if m + 1 = 13 then civilDays (y + 1) 1 d else civilDays y (m + 1) d)
      = civilDays y m d + daysIn m y := by
  by_cases h12 : m = 12
  · subst h12
    simp only [civilDays, daysSinceEpoch_succ, leapAdj, daysIn]
    cases isLeap y <;> simp [daysBefore] <;> ring
  · have h13 : ¬ m + 1 = 13 := by omega
    rw [if_neg h13]
    simp only [civilDays, leapAdj, daysIn]
    have : m ≤ 11 := by omega
    interval_cases m <;> cases isLeap y <;> simp [daysBefore] <;> ring

theorem Clock_range (t : Time) :
    (0 ≤ t.Clock.1 ∧ t.Clock.1 < 24) ∧ (0 ≤ t.Clock.2.1 ∧ t.Clock.2.1 < 60) ∧
      (0 ≤ t.Clock.2.2 ∧ t.Clock.2.2 < 60) ∧
      t.Clock.1 * 3600 + t.Clock.2.1 * 60 + t.Clock.2.2 = t.abs % 86400 := by
  simp only [Time.Clock]
  omega

theorem date_spec (t : Time) :
    1 ≤ t.Date.2.1 ∧ t.Date.2.1 ≤ 12 ∧ 1 ≤ t.Date.2.2 ∧
      t.Date.2.2 ≤ daysIn t.Date.2.1 t.Date.1 ∧
      civilDays t.Date.1 t.Date.2.1 t.Date.2.2 = t.abs / 86400 := by
  obtain ⟨a, b, c⟩ := absYday_spec (t.abs / 86400)
  obtain ⟨m1, m2, d1, d2, e⟩ := absMonthDay_spec _ _ b c
  simp only [Time.Date, absDate, civilDays]
  exact ⟨m1, m2, d1, d2, by omega⟩

theorem Time.ext_ns {t u : Time} (h : t.ns = u.ns) : t = u := by
  cases t
  cases u
  simp_all

/-- Rebuilding an instant from its own calendar fields gives it back. -/
theorem Date_date (t : Time) :
    Date t.Date.1 t.Date.2.1 t.Date.2.2 t.Clock.1 t.Clock.2.1 t.Clock.2.2 t.Nanosecond = t := by
  obtain ⟨m1, m2, _, _, e⟩ := date_spec t
  obtain ⟨ch, cm, cs, ce⟩ := Clock_range t
  have hn : 0 ≤ t.Nanosecond ∧ t.Nanosecond < 1000000000 := by
    simp only [Time.Nanosecond]
    omega
  have key := Date_ns t.Date.1 t.Date.2.1 t.Date.2.2 _ _ _ _ m1 (by omega) ch cm cs hn
  rw [if_neg (by omega), e] at key
  apply Time.ext_ns
  rw [key]
  simp only [Time.abs, Time.Nanosecond] at ce ⊢
  omega

/-- One calendar month later is later by the number of days of the month. -/
theorem AddDate_month_ns (t : Time) :
    (t.AddDate 0 1 0).ns = t.ns + daysIn t.Date.2.1 t.Date.1 * 86400 * 1000000000 := by
  obtain ⟨m1, m2, _, _, e⟩ := date_spec t
  obtain ⟨ch, cm, cs, ce⟩ := Clock_range t
  have hn : 0 ≤ t.Nanosecond ∧ t.Nanosecond < 1000000000 := by
    simp only [Time.Nanosecond]
    omega
  simp only [Time.AddDate, add_zero]
  rw [Date_ns _ _ _ _ _ _ _ (by omega) (by omega) ch cm cs hn,
    civilDays_next_month _ _ _ m1 m2, e]
  simp only [Time.abs, Time.Nanosecond] at ce ⊢
  generalize daysIn t.Date.2.1 t.Date.1 = k at *
  omega

/-- Adding `k` calendar days moves the instant by `k` times 24 hours. -/
theorem AddDate_days_ns (t : Time) (k : Int) :
    (t.AddDate 0 0 k).ns = t.ns + k * 86400 * 1000000000 := by
  obtain ⟨m1, m2, _, _, e⟩ := date_spec t
  obtain ⟨ch, cm, cs, ce⟩ := Clock_range t
  have hn : 0 ≤ t.Nanosecond ∧ t.Nanosecond < 1000000000 := by
    simp only [Time.Nanosecond]
    omega
  simp only [Time.AddDate, add_zero]
  rw [Date_ns _ _ _ _ _ _ _ m1 (by omega) ch cm cs hn, if_neg (by omega)]
  have hc : civilDays t.Date.1 t.Date.2.1 (t.Date.2.2 + k) = t.abs / 86400 + k := by
    rw [← e]
    simp only [civilDays]
    ring
  rw [hc]
  simp only [Time.abs, Time.Nanosecond] at ce ⊢
  omega

theorem AddDate_month_bounds (t : Time) :
    t.ns + 28 * 86400 * 1000000000 ≤ (t.AddDate 0 1 0).ns ∧
      (t.AddDate 0 1 0).ns ≤ t.ns + 31 * 86400 * 1000000000 := by
  obtain ⟨m1, m2, _, _, _⟩ := date_spec t
  obtain ⟨a, b⟩ := daysIn_bounds t.Date.2.1 t.Date.1 m1 m2
  rw [AddDate_month_ns]
  constructor <;> nlinarith

end time

/-! ## Parsing with `dateFmt` -/

namespace time

open starlinggo

theorem parseChunk_keeps_clock (rest : List Chunk) (c : Chunk) (f f1 : Fields)
    (v v1 : List Char) (h : parseChunk rest c f v = .ok (f1, v1))
    (hc : (∃ s, c = .lit s) ∨ c = .stdLongYear ∨ c = .stdZeroMonth ∨ c = .stdZeroDay) :
    f1.hour = f.hour ∧ f1.min = f.min ∧ f1.sec = f.sec ∧ f1.nsec = f.nsec ∧
      ((c = .stdZeroMonth ∧ 1 ≤ f1.month ∧ f1.month ≤ 12) ∨
        (c ≠ .stdZeroMonth ∧ f1.month = f.month)) := by
  rcases hc with ⟨s, rfl⟩ | rfl | rfl | rfl
  · simp only [parseChunk] at h
    split at h
    · cases h
    · cases h
      simp
  · simp only [parseChunk] at h
    split at h
    · cases h
    · split at h
      · cases h
      · cases h
        simp
  · simp only [parseChunk] at h
    split at h
    · cases h
    · split at h
      · cases h
      · cases h
        rename_i m hr hg
        simp only [Bool.or_eq_true, decide_eq_true_eq, not_or, not_le, not_lt] at hr
        refine ⟨rfl, rfl, rfl, rfl, Or.inl ⟨rfl, ?_, ?_⟩⟩
        · show 1 ≤ m
          omega
        · show m ≤ 12
          omega
  · simp only [parseChunk] at h
    split at h
    · cases h
    · cases h
      simp

theorem parseLoop_dateFmt (v : List Char) (f : Fields)
    (h : parseLoop dateFmt {} v = .ok f) :
    f.hour = 0 ∧ f.min = 0 ∧ f.sec = 0 ∧ f.nsec = 0 ∧ 1 ≤ f.month ∧ f.month ≤ 12 := by
  simp only [dateFmt, parseLoop] at h
  split at h
  · cases h
  rename_i f1 v1 h1
  split at h
  · cases h
  rename_i f2 v2 h2
  split at h
  · cases h
  rename_i f3 v3 h3
  split at h
  · cases h
  rename_i f4 v4 h4
  split at h
  · cases h
  rename_i f5 v5 h5
  split at h
  · cases h
  cases h
  have k1 := parseChunk_keeps_clock _ _ _ _ _ _ h1 (Or.inr (Or.inl rfl))
  have k2 := parseChunk_keeps_clock _ _ _ _ _ _ h2 (Or.inl ⟨_, rfl⟩)
  have k3 := parseChunk_keeps_clock _ _ _ _ _ _ h3 (Or.inr (Or.inr (Or.inl rfl)))
  have k4 := parseChunk_keeps_clock _ _ _ _ _ _ h4 (Or.inl ⟨_, rfl⟩)
  have k5 := parseChunk_keeps_clock _ _ _ _ _ _ h5 (Or.inr (Or.inr (Or.inr rfl)))
  simp only [ne_eq, reduceCtorEq, not_false_eq_true, true_and, false_and, or_false, false_or,
    not_true_eq_false] at k1 k2 k3 k4 k5
  obtain ⟨a1, b1, c1, d1, _⟩ := k1
  obtain ⟨a2, b2, c2, d2, _⟩ := k2
  obtain ⟨a3, b3, c3, d3, m3, n3⟩ := k3
  obtain ⟨a4, b4, c4, d4, m4⟩ := k4
  obtain ⟨a5, b5, c5, d5, m5⟩ := k5
  refine ⟨?_, ?_, ?_, ?_, ?_, ?_⟩
  · rw [a5, a4, a3, a2, a1]
  · rw [b5, b4, b3, b2, b1]
  · rw [c5, c4, c3, c2, c1]
  · rw [d5, d4, d3, d2, d1]
  · rw [m5, m4]
    exact m3
  · rw [m5, m4]
    exact n3

/-- Every result of parsing with `dateFmt` is the start of a day. -/
theorem Parse_dateFmt_midnight (s : String) :
    (Parse dateFmt s).1.ns % (86400 * 1000000000) = 0 := by
  unfold Parse
  cases hf : parseLoop dateFmt {} s.toList with
  | error e => rfl
  | ok f =>
    obtain ⟨a, b, c, d, m1, m2⟩ := parseLoop_dateFmt _ _ hf
    have key : ∀ day : Int, (Date f.year f.month day 0 0 0 0).ns % (86400 * 1000000000) = 0 := by
      intro day
      rw [Date_ns _ _ _ _ _ _ _ m1 (by omega) (by omega) (by omega) (by omega) (by omega),
        if_neg (by omega)]
      omega
    have hm : ¬ f.month < 0 := by omega
    simp only [a, b, c, d, if_neg hm]
    generalize (if f.day < 0 then 1 else f.day) = day
    by_cases hv : (decide (day < 1) || decide (day > daysIn f.month f.year)) = true
    · rw [if_pos hv]
      rfl
    · rw [if_neg hv]
      exact key day

end time

/-! ## Loops as list operations -/

namespace starlinggo

open time

variable {F : Type} [GoFloat F]

/-- A loop that overwrites its result at every element passing a test ends with
the value taken from the last such element, or with the initial value. -/
theorem foldl_overwrite {α β : Type} (p : α → Bool) (g : α → β) (init : β) (xs : List α) :
    xs.foldl (fun acc x => if p x = true then g x else acc) init =
      ((lastSuch p xs).map g).getD init := by
  unfold lastSuch
  induction xs using List.reverseRecOn with
  | nil => rfl
  | append_singleton l a ih =>
    rw [List.foldl_append, List.filter_append]
    simp only [List.foldl_cons, List.foldl_nil]
    by_cases h : p a = true
    · simp [h, List.filter_cons]
    · have h2 : p a = false := by simpa using h
      simpa [h2, List.filter_cons] using ih

theorem lastSuch_none {α : Type} (p : α → Bool) (xs : List α) :
    lastSuch p xs = none ↔ ∀ x ∈ xs, ¬ p x = true := by
  simp [lastSuch, List.filter_eq_nil_iff]

theorem lastSuch_some {α : Type} (p : α → Bool) (xs : List α) (a : α)
    (h : lastSuch p xs = some a) : a ∈ xs ∧ p a = true := by
  have := List.mem_of_getLast?_eq_some h
  simpa [List.mem_filter] using this

/-- The element at index `j` is the last one passing the test when it passes
and no later element does. -/
theorem lastSuch_index {α : Type} (p : α → Bool) (xs : List α) (j : Nat) (a : α)
    (hj : xs[j]? = some a) (pa : p a = true)
    (hlast : ∀ k b, j < k → xs[k]? = some b → ¬ p b = true) :
    lastSuch p xs = some a := by
  have hlen : j < xs.length := by
    rcases Nat.lt_or_ge j xs.length with h | h
    · exact h
    · rw [List.getElem?_eq_none h] at hj
      cases hj
  have hget : xs[j] = a := by
    rw [List.getElem?_eq_getElem hlen] at hj
    exact Option.some.inj hj
  have hsplit : xs = xs.take j ++ a :: xs.drop (j + 1) := by
    rw [← hget]
    simp
  have hpost : (xs.drop (j + 1)).filter p = [] := by
    rw [List.filter_eq_nil_iff]
    intro b hb
    obtain ⟨i, hi, rfl⟩ := List.getElem_of_mem hb
    apply hlast (j + 1 + i) _ (by omega)
    rw [List.getElem_drop]
    exact List.getElem?_eq_getElem _
  unfold lastSuch
  rw [hsplit, List.filter_append, List.filter_cons, if_pos pa, hpost]
  exact List.getLast?_concat _

end starlinggo

/-! ## Pay-date detection -/

section PayDate

open time starlinggo

variable {F : Type}

theorem getLastPayDay_eq (ts : List (transaction F)) (ref : String) :
    starlinggo.getLastPayDay ts ref =
      ((lastSuch (starlinggo.payMatch ref) ts).map txTime).getD zeroTime :=
  foldl_overwrite (starlinggo.payMatch ref) txTime zeroTime ts

theorem getLastPayDay_employer_eq (ts : List (transaction F)) (ref employer : String) :
    starlingGo.getLastPayDay ts ref employer =
      ((lastSuch (starlingGo.payMatch ref employer) ts).map txTime).getD zeroTime :=
  foldl_overwrite (starlingGo.payMatch ref employer) txTime zeroTime ts

theorem overwrite_zero_iff {α : Type} (p : α → Bool) (g : α → Time) (xs : List α) :
    ((lastSuch p xs).map g).getD zeroTime = zeroTime ↔
      (∀ x ∈ xs, ¬ p x = true) ∨ ∃ x, lastSuch p xs = some x ∧ g x = zeroTime := by
  cases h : lastSuch p xs with
  | none =>
    simp only [Option.map_none', Option.getD_none, true_iff]
    exact Or.inl ((lastSuch_none p xs).1 h)
  | some a =>
    obtain ⟨hmem, hp⟩ := lastSuch_some p xs a h
    simp only [Option.map_some', Option.getD_some]
    constructor
    · intro hz
      exact Or.inr ⟨a, rfl, hz⟩
    · rintro (hno | ⟨x, hx, hz⟩)
      · exact absurd hp (hno a hmem)
      · cases hx
        exact hz

/-- C1, as the claim states it, fails: a transaction that satisfies the match
predicate but whose time stamp does not fit the layout (here it lacks the
milliseconds) leaves `getLastPayDay` at the zero time, in both files. -/
theorem C1_counterexample :
    ¬ (starlinggo.getLastPayDay [Examples.salaryNoMillis] "SALARY" = zeroTime ↔
        ∀ t ∈ [Examples.salaryNoMillis], ¬ starlinggo.payMatch "SALARY" t = true) ∧
    ¬ (starlingGo.getLastPayDay [Examples.salaryNoMillis] "SALARY" "ACME LTD" = zeroTime ↔
        ∀ t ∈ [Examples.salaryNoMillis],
          ¬ starlingGo.payMatch "SALARY" "ACME LTD" t = true) := by
  decide

/-- C1, amended: `getLastPayDay` returns the zero time if and only if no
transaction satisfies the match predicate, or the last transaction in list order
that satisfies it has a `TransactionDt` whose parse (errors discarded) is the
zero time. This holds for `starling.go` and, with the counterparty in the
predicate, for `starlingGo.go`. -/
theorem C1_getLastPayDay_zero_iff (ts : List (transaction F)) (ref employer : String) :
    (starlinggo.getLastPayDay ts ref = zeroTime ↔
      (∀ t ∈ ts, ¬ starlinggo.payMatch ref t = true) ∨
        ∃ t, lastSuch (starlinggo.payMatch ref) ts = some t ∧ txTime t = zeroTime) ∧
    (starlingGo.getLastPayDay ts ref employer = zeroTime ↔
      (∀ t ∈ ts, ¬ starlingGo.payMatch ref employer t = true) ∨
        ∃ t, lastSuch (starlingGo.payMatch ref employer) ts = some t ∧ txTime t = zeroTime) := by
  rw [getLastPayDay_eq, getLastPayDay_employer_eq]
  exact ⟨overwrite_zero_iff _ _ _, overwrite_zero_iff _ _ _⟩

/-- C2: when the transactions at positions `i < j` both satisfy the match
predicate and none after position `j` does, `getLastPayDay` returns the parsed
time of the transaction at position `j`, whatever the chronological order of the
two; in `starling.go` and, with the counterparty in the predicate, in
`starlingGo.go`. -/
theorem C2_last_match_wins (ts : List (transaction F)) (ref employer : String) (i j : Nat)
    (ti tj : transaction F) (_hij : i < j) (_hi : ts[i]? = some ti) (hj : ts[j]? = some tj) :
    (starlinggo.payMatch ref ti = true → starlinggo.payMatch ref tj = true →
      (∀ k tk, j < k → ts[k]? = some tk → ¬ starlinggo.payMatch ref tk = true) →
      starlinggo.getLastPayDay ts ref = (Parse datetimeFmt tj.TransactionDt).1) ∧
    (starlingGo.payMatch ref employer ti = true → starlingGo.payMatch ref employer tj = true →
      (∀ k tk, j < k → ts[k]? = some tk → ¬ starlingGo.payMatch ref employer tk = true) →
      starlingGo.getLastPayDay ts ref employer = (Parse datetimeFmt tj.TransactionDt).1) := by
  constructor
  · intro _ mj hlast
    rw [getLastPayDay_eq, lastSuch_index _ ts j tj hj mj hlast]
    rfl
  · intro _ mj hlast
    rw [getLastPayDay_employer_eq, lastSuch_index _ ts j tj hj mj hlast]
    rfl

/-- C2 at a concrete feed: the April salary at position 1 is followed by the
March salary at position 2, and the result is the March instant although it is
the earlier of the two. -/
theorem C2_last_match_wins_witness :
    starlinggo.getLastPayDay [Examples.coffee, Examples.salaryApril, Examples.salaryMarch]
        "SALARY" = (Parse datetimeFmt "2022-03-15T09:30:00.000Z").1 ∧
    starlingGo.getLastPayDay [Examples.coffee, Examples.salaryApril, Examples.salaryMarch]
        "SALARY" "ACME LTD" = (Parse datetimeFmt "2022-03-15T09:30:00.000Z").1 ∧
    (Parse datetimeFmt "2022-03-15T09:30:00.000Z").1.Before
        (Parse datetimeFmt "2022-04-15T09:30:00.000Z").1 = true :=
  have hlast : ∀ (p : transaction ℚ → Bool) (k : Nat) (tk : transaction ℚ), 2 < k →
      [Examples.coffee, Examples.salaryApril, Examples.salaryMarch][k]? = some tk →
      ¬ p tk = true := by
    intro p k tk hk h
    rw [List.getElem?_eq_none (by simpa using hk)] at h
    cases h
  have key := C2_last_match_wins
    [Examples.coffee, Examples.salaryApril, Examples.salaryMarch] "SALARY" "ACME LTD" 1 2
    Examples.salaryApril Examples.salaryMarch (by decide) rfl rfl
  ⟨key.1 (by decide) (by decide) (hlast _), key.2 (by decide) (by decide) (hlast _), by decide⟩

end PayDate

/-! ## Account initialisation -/

section Accounts

open starlinggo

/-- C10: when the accounts request is answered and decoded to the list `accs`,
`AccountInit token` returns an `Account` whose `Token` is `token` and whose
`AccountUid` and `CategoryUid` are those of the last account in list order
whose type is `PRIMARY`, both empty when there is none; no account of another
type supplies them. -/
theorem C10_AccountInit (w : World) (token resp : String) (accs : List accountDetial)
    (hget : w.get "accounts" token = some resp)
    (hdec : w.unmarshalAccounts resp = some accs) :
    AccountInit w token =
      some (((lastSuch (fun a => a.AccountType == "PRIMARY") accs).map
        (fun a => { Token := token, AccountUid := a.AccountUid, CategoryUid := a.CategoryUid })).getD
        { Token := token, AccountUid := "", CategoryUid := "" }) := by
  unfold AccountInit getPrimaryAccountDetails
  rw [hget]
  simp only [hdec]
  have h := foldl_overwrite (fun a : accountDetial => a.AccountType == "PRIMARY")
    (fun a => (a.AccountUid, a.CategoryUid)) ("", "") accs
  rw [h]
  cases lastSuch (fun a : accountDetial => a.AccountType == "PRIMARY") accs <;> rfl

/-- C10 on the data of `Test_AccountInit`: a `PRIMARY` account `correct`
followed by a `SECONDAY` account `incorrect` gives `correct` twice. -/
theorem C10_AccountInit_witness :
    AccountInit Examples.testWorld "bob" =
      some { Token := "bob", AccountUid := "correct", CategoryUid := "correct" } :=
  C10_AccountInit Examples.testWorld "bob" "\x7b\x7d" Examples.testAccounts rfl rfl

end Accounts

/-! ## The left-to-pay report -/

section Report

open time starlinggo

variable {F : Type} [GoFloat F]

theorem foldl_append_string (l : List String) (s : String) :
    l.foldl (fun r x => r ++ x) s = s ++ String.join l := by
  unfold String.join
  induction l generalizing s with
  | nil => simp
  | cons x xs ih =>
    simp only [List.foldl_cons]
    rw [ih (s ++ x), ih ("" ++ x), String.empty_append, String.append_assoc]

theorem String.join_cons_eq (x : String) (l : List String) :
    String.join (x :: l) = x ++ String.join l := by
  have h := foldl_append_string (x :: l) ""
  have h2 := foldl_append_string l x
  simp only [List.foldl_cons, String.empty_append] at h
  rw [← h, h2]

/-- A loop that, at every element passing a test, adds an amount to the total
and appends a row to the report. -/
theorem foldl_report {α : Type} (c : α → Bool) (a : α → F) (r : α → String) (xs : List α)
    (acc : F × String) :
    xs.foldl (fun acc e => if c e = true then (GoFloat.add acc.1 (a e), acc.2 ++ r e) else acc) acc
      = (((xs.filter c).map a).foldl GoFloat.add acc.1,
          acc.2 ++ String.join ((xs.filter c).map r)) := by
  induction xs generalizing acc with
  | nil => simp [String.join]
  | cons x xs ih =>
    simp only [List.foldl_cons]
    by_cases h : c x = true
    · rw [if_pos h, ih]
      simp [List.filter_cons, h, String.join_cons_eq, String.append_assoc]
    · rw [if_neg h, ih]
      simp [List.filter_cons, h]

theorem String.join_append_eq (l1 l2 : List String) :
    String.join (l1 ++ l2) = String.join l1 ++ String.join l2 := by
  induction l1 with
  | nil => simp [String.join]
  | cons x xs ih => simp [String.join_cons_eq, ih, String.append_assoc]

theorem ddStep_eq (payDate : Time) :
    starlinggo.ddStep (F := F) payDate = fun acc e =>
      if ddDue payDate e = true then
        (GoFloat.add acc.1 e.LatestPayment.LastAmount.Pence, acc.2 ++ starlinggo.ddRow e)
      else acc := rfl

theorem ddStepGo_eq (payDate : Time) :
    starlingGo.ddStep (F := F) payDate = fun acc e =>
      if ddDue payDate e = true then
        (GoFloat.add acc.1 e.LatestPayment.LastAmount.Pence, acc.2 ++ starlingGo.ddRow e)
      else acc := rfl

theorem rpStep_eq (payDate : Time) :
    rpStep (F := F) payDate = fun acc e =>
      if rpDue payDate e = true then (GoFloat.add acc.1 e.LastAmount.Pence, acc.2 ++ rpRow e)
      else acc := rfl

theorem soStep_eq (payDate : Time) :
    soStep (F := F) payDate = fun acc e =>
      if soDue payDate e = true then (GoFloat.add acc.1 e.Amount.Pence, acc.2 ++ soRow e)
      else acc := rfl

theorem leftToPayReport_eq (dd : List (directDebit F)) (rp : List (recurringPayment F))
    (so : List (standingOrder F)) (payDate : Time) :
    starlinggo.leftToPayReport dd rp so payDate =
      (GoFloat.div100 ((dueAmounts dd rp so payDate).foldl GoFloat.add GoFloat.zero),
        String.join (starlinggo.dueRows dd rp so payDate)) := by
  unfold starlinggo.leftToPayReport
  simp only [ddStep_eq, rpStep_eq, soStep_eq, foldl_report]
  simp only [dueAmounts, starlinggo.dueRows, List.foldl_append, String.join_append_eq,
    String.empty_append, String.append_assoc]

theorem leftToPayReportGo_eq (dd : List (directDebit F)) (rp : List (recurringPayment F))
    (so : List (standingOrder F)) (payDate : Time) :
    starlingGo.leftToPayReport dd rp so payDate =
      (GoFloat.div100 ((dueAmounts dd rp so payDate).foldl GoFloat.add GoFloat.zero),
        String.join (starlingGo.dueRows dd rp so payDate)) := by
  unfold starlingGo.leftToPayReport
  simp only [ddStepGo_eq, rpStep_eq, soStep_eq, foldl_report]
  simp only [dueAmounts, starlingGo.dueRows, List.foldl_append, String.join_append_eq,
    String.empty_append, String.append_assoc]

/-- C7: the report string of `leftToPayReport` is the concatenation of one
`writeRepTab` row per obligation that passes its filter: the direct debits in
input order, then the recurring payments in input order, then the standing
orders in input order; in both files. On three empty lists the report is the
empty string and the total is zero. -/
theorem C7_report_rows_in_order (dd : List (directDebit F)) (rp : List (recurringPayment F))
    (so : List (standingOrder F)) (payDate : Time) :
    (starlinggo.leftToPayReport dd rp so payDate).2
        = String.join
            ((dd.filter (ddDue payDate)).map
                (fun e => writeRepTab "ACTIVE" e.Payee
                  (GoFloat.div100 e.LatestPayment.LastAmount.Pence) ((ddTime e).Format dateFmt))
              ++ (rp.filter (rpDue payDate)).map
                (fun e => writeRepTab e.Status e.Payee (GoFloat.div100 e.LastAmount.Pence)
                  ((rpTime e).Format dateFmt))
              ++ (so.filter (soDue payDate)).map
                (fun e => writeRepTab "ACTIVE" e.Reference (GoFloat.div100 e.Amount.Pence)
                  ((soTime e).Format dateFmt))) ∧
    (starlingGo.leftToPayReport dd rp so payDate).2
        = String.join
            ((dd.filter (ddDue payDate)).map
                (fun e => writeRepTab e.Status e.Payee
                  (GoFloat.div100 e.LatestPayment.LastAmount.Pence) ((ddTime e).Format dateFmt))
              ++ (rp.filter (rpDue payDate)).map
                (fun e => writeRepTab e.Status e.Payee (GoFloat.div100 e.LastAmount.Pence)
                  ((rpTime e).Format dateFmt))
              ++ (so.filter (soDue payDate)).map
                (fun e => writeRepTab "ACTIVE" e.Reference (GoFloat.div100 e.Amount.Pence)
                  ((soTime e).Format dateFmt))) ∧
    starlinggo.leftToPayReport ([] : List (directDebit F)) [] [] payDate = (GoFloat.zero, "") ∧
    starlingGo.leftToPayReport ([] : List (directDebit F)) [] [] payDate = (GoFloat.zero, "") := by
  refine ⟨?_, ?_, ?_, ?_⟩
  · rw [leftToPayReport_eq]
    rfl
  · rw [leftToPayReportGo_eq]
    rfl
  · simp [starlinggo.leftToPayReport, GoFloat.div100_zero]
  · simp [starlingGo.leftToPayReport, GoFloat.div100_zero]

end Report

section FilterTests

open time starlinggo

variable {F : Type}

theorem soDue_iff (payDate : Time) (e : standingOrder F) :
    soDue payDate e = true ↔
      e.CancelDate ≠ "" ∧ (soTime e).ns < (payDate.AddDate 0 1 0).ns ∧
        payDate.ns < (soTime e).ns := by
  simp [soDue, Time.Before, Time.After, and_assoc]

theorem ddDue_iff (payDate : Time) (e : directDebit F) :
    ddDue payDate e = true ↔ e.Status = "LIVE" ∧ (ddTime e).Before payDate = true := by
  simp [ddDue]

theorem rpDue_iff (payDate : Time) (e : recurringPayment F) :
    rpDue payDate e = true ↔ e.Status = "ACTIVE" ∧ (rpTime e).Before payDate = true := by
  simp [rpDue]

end FilterTests

section Filters

open time starlinggo

variable {F : Type} [GoFloat F]

theorem writeRepTab_length (status payee : String) (amnt : F) (dt : String) :
    0 < (writeRepTab status payee amnt dt).length := by
  unfold writeRepTab
  simp only [String.length_append]
  have : "<tr><td>".length = 8 := by decide
  omega

theorem append_row_ne (s r : String) (h : 0 < r.length) : s ++ r ≠ s := by
  intro e
  have := congrArg String.length e
  rw [String.length_append] at this
  omega

/-- C3: for a standing order with a non-empty `CancelDate`, the loop body of
`leftToPayReport` (shared by both files) leaves total and report unchanged when
the parsed `NextDate` equals the pay date, adds the amount and appends the row
when it is the pay date plus one day, does the same when it is one day before
the pay date plus one calendar month, and leaves them unchanged when it equals
the pay date plus one calendar month. -/
theorem C3_standing_order_window (payDate : Time) (e : standingOrder F) (acc : F × String)
    (hc : e.CancelDate ≠ "") :
    ((Parse datetimeFmt e.NextDate).1 = payDate → soStep payDate acc e = acc) ∧
    ((Parse datetimeFmt e.NextDate).1 = payDate.AddDate 0 0 1 →
      soStep payDate acc e =
        (GoFloat.add acc.1 e.Amount.Pence,
          acc.2 ++ writeRepTab "ACTIVE" e.Reference (GoFloat.div100 e.Amount.Pence)
            ((Parse datetimeFmt e.NextDate).1.Format dateFmt))) ∧
    ((Parse datetimeFmt e.NextDate).1 = (payDate.AddDate 0 1 0).AddDate 0 0 (-1) →
      soStep payDate acc e =
        (GoFloat.add acc.1 e.Amount.Pence,
          acc.2 ++ writeRepTab "ACTIVE" e.Reference (GoFloat.div100 e.Amount.Pence)
            ((Parse datetimeFmt e.NextDate).1.Format dateFmt))) ∧
    ((Parse datetimeFmt e.NextDate).1 = payDate.AddDate 0 1 0 → soStep payDate acc e = acc) := by
  obtain ⟨lo, _⟩ := AddDate_month_bounds payDate
  have h1 := AddDate_days_ns payDate 1
  have h2 := AddDate_days_ns (payDate.AddDate 0 1 0) (-1)
  rw [soStep_eq]
  refine ⟨fun h => ?_, fun h => ?_, fun h => ?_, fun h => ?_⟩
  · have : ¬ soDue payDate e = true := by
      rw [soDue_iff]
      rintro ⟨_, _, c⟩
      rw [show soTime e = payDate from h] at c
      omega
    simp only [this, if_false, Bool.false_eq_true]
  · have : soDue payDate e = true := by
      rw [soDue_iff, show soTime e = payDate.AddDate 0 0 1 from h]
      exact ⟨hc, by omega, by omega⟩
    simp only [this, if_true]
    rfl
  · have : soDue payDate e = true := by
      rw [soDue_iff, show soTime e = (payDate.AddDate 0 1 0).AddDate 0 0 (-1) from h]
      exact ⟨hc, by omega, by omega⟩
    simp only [this, if_true]
    rfl
  · have : ¬ soDue payDate e = true := by
      rw [soDue_iff]
      rintro ⟨_, c, _⟩
      rw [show soTime e = payDate.AddDate 0 1 0 from h] at c
      omega
    simp only [this, if_false, Bool.false_eq_true]

/-- C3 at the pay date 2022-04-15T09:30Z: next dates on 15 April, 16 April,
14 May and 15 May at 09:30Z are left out, taken, taken and left out. -/
theorem C3_standing_order_window_witness :
    soStep Examples.payDay ((0 : ℚ), "") (Examples.rent "2022-04-15T09:30:00.000Z") = (0, "") ∧
    soStep Examples.payDay ((0 : ℚ), "") (Examples.rent "2022-04-16T09:30:00.000Z") =
      (GoFloat.add 0 2000,
        "" ++ writeRepTab "ACTIVE" "RENT" (GoFloat.div100 (2000 : ℚ))
          ((Parse datetimeFmt "2022-04-16T09:30:00.000Z").1.Format dateFmt)) ∧
    soStep Examples.payDay ((0 : ℚ), "") (Examples.rent "2022-05-14T09:30:00.000Z") =
      (GoFloat.add 0 2000,
        "" ++ writeRepTab "ACTIVE" "RENT" (GoFloat.div100 (2000 : ℚ))
          ((Parse datetimeFmt "2022-05-14T09:30:00.000Z").1.Format dateFmt)) ∧
    soStep Examples.payDay ((0 : ℚ), "") (Examples.rent "2022-05-15T09:30:00.000Z") = (0, "") :=
  ⟨(C3_standing_order_window Examples.payDay (Examples.rent "2022-04-15T09:30:00.000Z") (0, "")
      (by decide)).1 (by decide),
    (C3_standing_order_window Examples.payDay (Examples.rent "2022-04-16T09:30:00.000Z") (0, "")
      (by decide)).2.1 (by decide),
    (C3_standing_order_window Examples.payDay (Examples.rent "2022-05-14T09:30:00.000Z") (0, "")
      (by decide)).2.2.1 (by decide),
    (C3_standing_order_window Examples.payDay (Examples.rent "2022-05-15T09:30:00.000Z") (0, "")
      (by decide)).2.2.2 (by decide)⟩

theorem ddStep_included_iff (payDate : Time) (e : directDebit F) :
    (∀ acc : F × String, starlinggo.ddStep payDate acc e =
        (GoFloat.add acc.1 e.LatestPayment.LastAmount.Pence, acc.2 ++ starlinggo.ddRow e)) ↔
      ddDue payDate e = true := by
  rw [ddStep_eq]
  constructor
  · intro h
    by_contra hn
    have h0 := h (GoFloat.zero, "")
    simp only [hn, if_false, Bool.false_eq_true] at h0
    have h1 := congrArg Prod.snd h0
    exact append_row_ne "" _ (writeRepTab_length _ _ _ _) h1.symm
  · intro h acc
    simp only [h, if_true]

theorem ddStepGo_included_iff (payDate : Time) (e : directDebit F) :
    (∀ acc : F × String, starlingGo.ddStep payDate acc e =
        (GoFloat.add acc.1 e.LatestPayment.LastAmount.Pence, acc.2 ++ starlingGo.ddRow e)) ↔
      ddDue payDate e = true := by
  rw [ddStepGo_eq]
  constructor
  · intro h
    by_contra hn
    have h0 := h (GoFloat.zero, "")
    simp only [hn, if_false, Bool.false_eq_true] at h0
    have h1 := congrArg Prod.snd h0
    exact append_row_ne "" _ (writeRepTab_length _ _ _ _) h1.symm
  · intro h acc
    simp only [h, if_true]

/-- C4, as the claim states it, fails: a live direct debit last paid on
2022-04-15 is taken into the report for the pay date 2022-04-15T09:30Z, although
at calendar-date precision its last payment is not earlier than the pay date;
in both files. -/
theorem C4_counterexample :
    ¬ (starlinggo.ddStep Examples.payDay ((0 : ℚ), "") Examples.sameDay =
          (GoFloat.add 0 3100, "" ++ starlinggo.ddRow Examples.sameDay) ↔
        Examples.sameDay.Status = "LIVE" ∧
          calendarDay (Parse dateFmt Examples.sameDay.LatestPayment.LastDate).1
            < calendarDay Examples.payDay) ∧
    ¬ (starlingGo.ddStep Examples.payDay ((0 : ℚ), "") Examples.sameDay =
          (GoFloat.add 0 3100, "" ++ starlingGo.ddRow Examples.sameDay) ↔
        Examples.sameDay.Status = "LIVE" ∧
          calendarDay (Parse dateFmt Examples.sameDay.LatestPayment.LastDate).1
            < calendarDay Examples.payDay) := by
  have hd : ddDue Examples.payDay Examples.sameDay = true := by decide
  have hc : ¬ (Examples.sameDay.Status = "LIVE" ∧
      calendarDay (Parse dateFmt Examples.sameDay.LatestPayment.LastDate).1
        < calendarDay Examples.payDay) := by decide
  constructor
  · intro h
    exact hc (h.1 ((ddStep_included_iff Examples.payDay Examples.sameDay).2 hd (0, "")))
  · intro h
    exact hc (h.1 ((ddStepGo_included_iff Examples.payDay Examples.sameDay).2 hd (0, "")))

/-- C4, amended: the loop body of `leftToPayReport` takes a direct debit (adds
its amount and appends its row) if and only if its `Status` is `LIVE` and the
instant parsed from its last payment date (00:00 UTC of that date; the zero time
when the text does not parse) is strictly before the pay date instant, and it
leaves total and report unchanged otherwise; in both files. In particular a
`LIVE` direct debit whose last payment date is the calendar day of the pay date
is taken exactly when the pay date is later than 00:00 UTC of that day. -/
theorem C4_direct_debit_filter (payDate : Time) (e : directDebit F) :
    ((∀ acc : F × String, starlinggo.ddStep payDate acc e =
        (GoFloat.add acc.1 e.LatestPayment.LastAmount.Pence,
          acc.2 ++ writeRepTab "ACTIVE" e.Payee (GoFloat.div100 e.LatestPayment.LastAmount.Pence)
            ((Parse dateFmt e.LatestPayment.LastDate).1.Format dateFmt))) ↔
      (e.Status = "LIVE" ∧ (Parse dateFmt e.LatestPayment.LastDate).1.Before payDate = true)) ∧
    ((∀ acc : F × String, starlingGo.ddStep payDate acc e =
        (GoFloat.add acc.1 e.LatestPayment.LastAmount.Pence,
          acc.2 ++ writeRepTab e.Status e.Payee (GoFloat.div100 e.LatestPayment.LastAmount.Pence)
            ((Parse dateFmt e.LatestPayment.LastDate).1.Format dateFmt))) ↔
      (e.Status = "LIVE" ∧ (Parse dateFmt e.LatestPayment.LastDate).1.Before payDate = true)) ∧
    (¬ (e.Status = "LIVE" ∧ (Parse dateFmt e.LatestPayment.LastDate).1.Before payDate = true) →
      ∀ acc : F × String,
        starlinggo.ddStep payDate acc e = acc ∧ starlingGo.ddStep payDate acc e = acc) ∧
    (e.Status = "LIVE" →
      calendarDay (Parse dateFmt e.LatestPayment.LastDate).1 = calendarDay payDate →
      ((Parse dateFmt e.LatestPayment.LastDate).1.Before payDate = true ↔
        payDate.ns % (86400 * 1000000000) ≠ 0)) := by
  refine ⟨?_, ?_, ?_, ?_⟩
  · exact (ddStep_included_iff payDate e).trans (ddDue_iff payDate e)
  · exact (ddStepGo_included_iff payDate e).trans (ddDue_iff payDate e)
  · intro h acc
    have hn : ¬ ddDue payDate e = true := fun hd => h ((ddDue_iff payDate e).1 hd)
    rw [ddStep_eq, ddStepGo_eq]
    simp only [hn, if_false, Bool.false_eq_true, and_self]
  · intro _ hm
    have h0 := Parse_dateFmt_midnight e.LatestPayment.LastDate
    simp only [Time.Before, decide_eq_true_eq, calendarDay, Time.abs] at hm ⊢
    omega

/-- C4 at the pay date 2022-04-15T09:30Z: the direct debit last paid on
2022-04-15 is taken, and a direct debit that is not `LIVE` is left out. -/
theorem C4_direct_debit_filter_witness :
    starlinggo.ddStep Examples.payDay ((0 : ℚ), "") Examples.sameDay =
      (GoFloat.add 0 3100,
        "" ++ writeRepTab "ACTIVE" "WATER" (GoFloat.div100 (3100 : ℚ))
          ((Parse dateFmt "2022-04-15").1.Format dateFmt)) ∧
    starlinggo.ddStep Examples.payDay ((0 : ℚ), "")
      { Examples.gym with Status := "CANCELLED" } = (0, "") ∧
    ((Parse dateFmt "2022-04-15").1.Before Examples.payDay = true ↔
      Examples.payDay.ns % (86400 * 1000000000) ≠ 0) :=
  ⟨(C4_direct_debit_filter Examples.payDay Examples.sameDay).1.2 (by decide) (0, ""),
    ((C4_direct_debit_filter Examples.payDay { Examples.gym with Status := "CANCELLED" }).2.2.1
      (by decide) (0, "")).1,
    (C4_direct_debit_filter Examples.payDay Examples.sameDay).2.2.2 (by decide) (by decide)⟩

end Filters

section ZeroPayDate

open time starlinggo

variable {F : Type} [GoFloat F]

/-- C5, as the claim states it, fails: with the zero pay date (which
`getLastPayDay` returns on an empty feed) a live direct debit whose last payment
date lies in year 0 is still taken, so the report is not empty; in both
files. -/
theorem C5_counterexample :
    starlinggo.getLastPayDay ([] : List (transaction ℚ)) "SALARY" = zeroTime ∧
    ¬ (starlinggo.leftToPayReport [Examples.yearZero] [] [] zeroTime = ((0 : ℚ), "")) ∧
    ¬ (starlingGo.leftToPayReport [Examples.yearZero] [] [] zeroTime = ((0 : ℚ), "")) := by
  have hd : ddDue zeroTime Examples.yearZero = true := by decide
  refine ⟨rfl, ?_, ?_⟩
  · intro h
    have h1 := congrArg Prod.snd h
    rw [leftToPayReport_eq] at h1
    simp only [starlinggo.dueRows, List.filter_cons, List.filter_nil, hd, if_true, List.map_cons,
      List.map_nil, List.append_nil, String.join_cons_eq, show String.join [] = "" from rfl,
      String.append_empty] at h1
    have h2 := congrArg String.length h1
    have h3 := writeRepTab_length "ACTIVE" Examples.yearZero.Payee
      (GoFloat.div100 Examples.yearZero.LatestPayment.LastAmount.Pence)
      ((ddTime Examples.yearZero).Format dateFmt)
    simp only [starlinggo.ddRow] at h2
    rw [h2] at h3
    exact absurd h3 (by decide)
  · intro h
    have h1 := congrArg Prod.snd h
    rw [leftToPayReportGo_eq] at h1
    simp only [starlingGo.dueRows, List.filter_cons, List.filter_nil, hd, if_true, List.map_cons,
      List.map_nil, List.append_nil, String.join_cons_eq, show String.join [] = "" from rfl,
      String.append_empty] at h1
    have h2 := congrArg String.length h1
    have h3 := writeRepTab_length Examples.yearZero.Status Examples.yearZero.Payee
      (GoFloat.div100 Examples.yearZero.LatestPayment.LastAmount.Pence)
      ((ddTime Examples.yearZero).Format dateFmt)
    simp only [starlingGo.ddRow] at h2
    rw [h2] at h3
    exact absurd h3 (by decide)

/-- C5, amended: when the pay date is the zero time, no direct debit and no
recurring payment has a last date that parses to an instant before the zero time
0001-01-01T00:00:00Z, and no standing order has a next date that parses to an
instant strictly between the zero time and 0001-02-01T00:00:00Z, then
`leftToPayReport` returns total 0 and the empty report; in both files. -/
theorem C5_zero_pay_date (dd : List (directDebit F)) (rp : List (recurringPayment F))
    (so : List (standingOrder F))
    (hdd : ∀ e ∈ dd, (Parse dateFmt e.LatestPayment.LastDate).1.Before zeroTime = false)
    (hrp : ∀ e ∈ rp, (Parse datetimeFmt e.LastDate).1.Before zeroTime = false)
    (hso : ∀ e ∈ so, (Parse datetimeFmt e.NextDate).1.After zeroTime = false ∨
      (Parse datetimeFmt e.NextDate).1.Before (Date 1 2 1 0 0 0 0) = false) :
    starlinggo.leftToPayReport dd rp so zeroTime = (GoFloat.zero, "") ∧
    starlingGo.leftToPayReport dd rp so zeroTime = (GoFloat.zero, "") := by
  have hfeb : zeroTime.AddDate 0 1 0 = Date 1 2 1 0 0 0 0 := by decide
  have f1 : dd.filter (ddDue zeroTime) = [] := by
    rw [List.filter_eq_nil_iff]
    intro e he hd
    rw [ddDue_iff] at hd
    have := hdd e he
    rw [show (Parse dateFmt e.LatestPayment.LastDate).1 = ddTime e from rfl, hd.2] at this
    cases this
  have f2 : rp.filter (rpDue zeroTime) = [] := by
    rw [List.filter_eq_nil_iff]
    intro e he hd
    rw [rpDue_iff] at hd
    have := hrp e he
    rw [show (Parse datetimeFmt e.LastDate).1 = rpTime e from rfl, hd.2] at this
    cases this
  have f3 : so.filter (soDue zeroTime) = [] := by
    rw [List.filter_eq_nil_iff]
    intro e he hd
    simp only [soDue, Bool.and_eq_true, hfeb] at hd
    rcases hso e he with h | h
    · rw [show (Parse datetimeFmt e.NextDate).1 = soTime e from rfl, hd.2] at h
      cases h
    · rw [show (Parse datetimeFmt e.NextDate).1 = soTime e from rfl, hd.1.2] at h
      cases h
  rw [leftToPayReport_eq, leftToPayReportGo_eq]
  simp only [dueAmounts, starlinggo.dueRows, starlingGo.dueRows, f1, f2, f3, List.map_nil,
    List.append_nil, List.foldl_nil, GoFloat.div100_zero, show String.join [] = "" from rfl,
    and_self]

/-- C5 on obligations dated in 2022: with the zero pay date nothing is taken. -/
theorem C5_zero_pay_date_witness :
    starlinggo.leftToPayReport [Examples.gym, Examples.sameDay] [Examples.music]
      [Examples.rent "2022-04-25T09:30:00.000Z"] zeroTime = ((0 : ℚ), "") ∧
    starlingGo.leftToPayReport [Examples.gym, Examples.sameDay] [Examples.music]
      [Examples.rent "2022-04-25T09:30:00.000Z"] zeroTime = ((0 : ℚ), "") :=
  C5_zero_pay_date [Examples.gym, Examples.sameDay] [Examples.music]
    [Examples.rent "2022-04-25T09:30:00.000Z"] (by decide) (by decide) (by decide)

end ZeroPayDate

section Rows

open time starlinggo

/-- C8 at a failing input: for the live direct debit `GYM` and the pay date
2022-04-15T09:30Z, `leftToPayReport` of `starling.go` writes a row whose first
cell is `ACTIVE`, not the direct debit's own `Status`, which is `LIVE`; the
`leftToPayReport` of `starlingGo.go` writes `LIVE`. -/
theorem C8_direct_debit_label :
    Examples.gym.Status = "LIVE" ∧
    (starlinggo.leftToPayReport [Examples.gym] [] [] Examples.payDay).2 =
      "<tr><td>ACTIVE              </td><td>GYM                           </td><td>£   50.00</td><td>2022-04-13</td></tr>" ∧
    (starlingGo.leftToPayReport [Examples.gym] [] [] Examples.payDay).2 =
      "<tr><td>LIVE                </td><td>GYM                           </td><td>£   50.00</td><td>2022-04-13</td></tr>" := by
  have hd : ddDue Examples.payDay Examples.gym = true := by decide
  have h50 : GoFloat.div100 (5000 : ℚ) = 50 := by
    show (5000 : ℚ) / 100 = 50
    norm_num
  refine ⟨rfl, ?_, ?_⟩
  · rw [leftToPayReport_eq]
    simp only [starlinggo.dueRows, List.filter_cons, List.filter_nil, hd, if_true, List.map_cons,
      List.map_nil, List.append_nil, String.join_cons_eq, show String.join [] = "" from rfl,
      String.append_empty]
    show writeRepTab "ACTIVE" "GYM" (GoFloat.div100 (5000 : ℚ))
      ((ddTime Examples.gym).Format dateFmt) = _
    rw [h50]
    decide
  · rw [leftToPayReportGo_eq]
    simp only [starlingGo.dueRows, List.filter_cons, List.filter_nil, hd, if_true, List.map_cons,
      List.map_nil, List.append_nil, String.join_cons_eq, show String.join [] = "" from rfl,
      String.append_empty]
    show writeRepTab "LIVE" "GYM" (GoFloat.div100 (5000 : ℚ))
      ((ddTime Examples.gym).Format dateFmt) = _
    rw [h50]
    decide

/-- C9 at the input of `Test_writeRepTab`: `writeRepTab` writes the currency
prefix as the single character `£`, while the string the test expects has the
two characters `Â£`; the two strings differ for every input. -/
theorem C9_writeRepTab_pound_sign :
    writeRepTab "s" "p" (1 : ℚ) "d" =
      "<tr><td>s                   </td><td>p                             </td><td>£    1.00</td><td>d</td></tr>" ∧
    testWant "s" "p" (1 : ℚ) "d" =
      "<tr><td>s                   </td><td>p                             </td><td>Â£    1.00</td><td>d</td></tr>" ∧
    ∀ (G : Type) [GoFloat G] (s p : String) (a : G) (d : String),
      writeRepTab s p a d ≠ testWant s p a d := by
  refine ⟨by decide, by decide, ?_⟩
  intro G _ s p a d h
  have hl := congrArg String.length h
  simp only [writeRepTab, testWant, String.length_append] at hl
  have h1 : "</td><td>£".length = 10 := by decide
  have h2 : "</td><td>Â£".length = 11 := by decide
  omega

end Rows
